import Mathlib

/-!
Verification development for the type-graph → text engine of
`src/windows/types.rs` (dump_syms): a shallow embedding of the
`TypeDumper` catalog, its size calculator, type printer, signature
builder, and the `FuncName::get_unknown` decoration parser, together
with theorems settling the specified properties.

Conventions of the embedding:
- Rust `u32` values are modelled as `Nat` (no arithmetic in the source
  can overflow: the only subtraction is guarded by a `> 8` test, and
  sizes are only copied, never combined).
- A fallible Rust computation is modelled by `RustRes α`:
  `.ok`/`.err` mirror `Result`, `.panic` marks an `unwrap`/index/division
  panic, and `.oof` marks fuel exhaustion of the embedding (the source
  recursion is unbounded over an arbitrary index graph, so every
  recursive function takes explicit fuel; `.oof` never corresponds to a
  source behaviour and is distinct from `.panic`).
- `TypeIndex` is a `Nat`; index 0 is the "no type" sentinel.
- The external demangler (`symbolic_demangle`) is out of scope of this
  repository; `TypeDumper.demangle` therefore takes the language
  detector and the demangler as explicit function parameters.
-/

namespace DumpSyms

/-- Outcome of a Rust computation: `Result::Ok`, `Result::Err` (payload
irrelevant to the claims), a panic (`unwrap` failure, out-of-bounds
index, division by zero), or out-of-fuel of the embedding. -/
inductive RustRes (α : Type) where
  | ok (a : α)
  | err
  | panic
  | oof
  deriving DecidableEq, Repr

/-- Sequencing that mirrors Rust's `?`: `err`, `panic` and `oof`
short-circuit. -/
def rbind {α β : Type} : RustRes α → (α → RustRes β) → RustRes β
  | .ok a, f => f a
  | .err, _ => .err
  | .panic, _ => .panic
  | .oof, _ => .oof

@[simp] theorem rbind_ok {α β : Type} (a : α) (f : α → RustRes β) :
    rbind (.ok a) f = f a := rfl
@[simp] theorem rbind_err {α β : Type} (f : α → RustRes β) :
    rbind .err f = .err := rfl
@[simp] theorem rbind_panic {α β : Type} (f : α → RustRes β) :
    rbind .panic f = .panic := rfl
@[simp] theorem rbind_oof {α β : Type} (f : α → RustRes β) :
    rbind .oof f = .oof := rfl

/-! ## Data model: the `pdb` record kinds used by `types.rs` -/

/-- `pdb::PrimitiveKind` (the variants matched in `types.rs`). -/
inductive PrimitiveKind where
  | NoType | Void
  | Char | UChar | RChar | I8 | U8 | Bool8
  | WChar | RChar16 | I16 | U16 | F16 | Bool16
  | RChar32 | I32 | U32 | F32 | F32PP | Bool32 | HRESULT
  | I64 | U64 | F64 | Complex32 | Bool64
  | I128 | U128 | F128 | Complex64
  | F48 | F80 | Complex80 | Complex128
  deriving DecidableEq, Repr

/-- `pdb::PrimitiveType`: kind plus the pointer-indirection flag
(`t.indirection.is_some()`). -/
structure PrimitiveType where
  kind : PrimitiveKind
  indirection : Bool
  deriving DecidableEq, Repr

/-- `pdb::ClassKind`. -/
inductive ClassKind where
  | Class | Interface | Struct
  deriving DecidableEq, Repr

/-- `pdb::ClassType`: the fields read by `types.rs`
(`properties.forward_reference()`, `name`, `unique_name`, `size`, `kind`). -/
structure ClassType where
  kind : ClassKind
  forward_reference : Bool
  name : String
  unique_name : Option String
  size : Nat
  deriving DecidableEq, Repr

/-- `pdb::UnionType` (same fields as used for classes). -/
structure UnionType where
  forward_reference : Bool
  name : String
  unique_name : Option String
  size : Nat
  deriving DecidableEq, Repr

/-- `pdb::PointerMode`. -/
inductive PointerMode where
  | Pointer | LValueReference | Member | MemberFunction | RValueReference
  deriving DecidableEq, Repr

/-- `pdb::PointerAttributes`: the three accessors used
(`size()`, `is_const()`, `pointer_mode()`). -/
structure PointerAttributes where
  size : Nat
  is_const : Bool
  mode : PointerMode
  deriving DecidableEq, Repr

/-- `pdb::PointerType`. -/
structure PointerType where
  underlying_type : Nat
  attributes : PointerAttributes
  deriving DecidableEq, Repr

/-- `pdb::ArrayType`: element type plus the stored dimension list
(cumulative byte sizes; `types.rs` reads `dimensions[0]` and
`dimensions.last()`). -/
structure ArrayType where
  element_type : Nat
  dimensions : List Nat
  deriving DecidableEq, Repr

/-- The function attributes read by `types.rs`
(`is_constructor()`, `cxx_return_udt()`). -/
structure FunctionAttributes where
  is_constructor : Bool
  cxx_return_udt : Bool
  deriving DecidableEq, Repr

/-- `pdb::ProcedureType`. -/
structure ProcedureType where
  attributes : FunctionAttributes
  return_type : Option Nat
  argument_list : Nat
  deriving DecidableEq, Repr

/-- `pdb::MemberFunctionType`. -/
structure MemberFunctionType where
  attributes : FunctionAttributes
  return_type : Nat
  class_type : Nat
  this_pointer_type : Option Nat
  argument_list : Nat
  deriving DecidableEq, Repr

/-- `pdb::ModifierType` (only `constant` is rendered; volatile ignored). -/
structure ModifierType where
  underlying_type : Nat
  constant : Bool
  deriving DecidableEq, Repr

/-- `pdb::EnumerationType`. -/
structure EnumerationType where
  underlying_type : Nat
  name : String
  deriving DecidableEq, Repr

/-- `pdb::Variant` of an enumerator value (only the width matters). -/
inductive Variant where
  | I8 | U8 | I16 | U16 | I32 | U32 | I64 | U64
  deriving DecidableEq, Repr

/-- `pdb::EnumerateType` (a single enumerator). -/
structure EnumerateType where
  name : String
  value : Variant
  deriving DecidableEq, Repr

/-- `pdb::ArgumentList`. -/
structure ArgumentListType where
  arguments : List Nat
  deriving DecidableEq, Repr

/-- `pdb::TypeData`: the closed tagged union. Variants not handled by
`types.rs` (`Bitfield`, `FieldList`, ...) are collapsed into `Other`,
whose tag stands for the `{:?}` debug text of the record. -/
inductive TypeData where
  | Primitive (t : PrimitiveType)
  | Class (t : ClassType)
  | Union (t : UnionType)
  | Enumeration (t : EnumerationType)
  | Enumerate (t : EnumerateType)
  | Pointer (t : PointerType)
  | Array (t : ArrayType)
  | Procedure (t : ProcedureType)
  | MemberFunction (t : MemberFunctionType)
  | Modifier (t : ModifierType)
  | ArgumentList (t : ArgumentListType)
  | Other (tag : String)
  deriving DecidableEq, Repr

/-- A raw record as held by the `TypeFinder`: `parse()` either yields a
`TypeData` or fails. -/
inductive RawType where
  | unparsable
  | parsed (t : TypeData)
  deriving DecidableEq, Repr

/-! ## `FuncName` and the decoration parser -/

/-- `FuncName` from `types.rs`. -/
inductive FuncName where
  | Undecorated (s : String)
  | Unknown (name : String) (stack_param_size : Nat)
  deriving DecidableEq, Repr

/-- Rust `u32::from_str` on a char sequence: optional leading `+`, then
one or more ASCII digits, value below `2^32`. -/
def parseU32 (cs : List Char) : Option Nat :=
  let ds := match cs with
    | '+' :: rest => rest
    | _ => cs
  if ds.isEmpty then none
  else if ds.all Char.isDigit then
    let n := ds.foldl (fun a c => a * 10 + (c.toNat - '0'.toNat)) 0
    if n < 2 ^ 32 then some n else none
  else none

/-- Split a char list at its first occurrence of `t`:
`some (before, after)` with `before ++ t :: after` the input. -/
def breakAtFirst (t : Char) : List Char → Option (List Char × List Char)
  | [] => none
  | x :: xs =>
    if x = t then some ([], xs)
    else match breakAtFirst t xs with
      | none => none
      | some (pre, post) => some (x :: pre, post)

/-- Rust `s.rsplitn(2, '@')` when it yields two parts:
`some (before_last_at, after_last_at)`; `none` when `s` has no `@`. -/
def rsplit2 (cs : List Char) : Option (List Char × List Char) :=
  match breakAtFirst '@' cs.reverse with
  | none => none
  | some (afterRev, beforeRev) => some (beforeRev.reverse, afterRev.reverse)

/-- The `sub.find(|c| c == ':' || c == '(')` test of `get_unknown`. -/
def hasColonOrParen (cs : List Char) : Bool :=
  cs.any fun ch => ch == ':' || ch == '('

/-- The body of `FuncName::get_unknown` over the character list of the
input (`name` is the whole original string, kept for the arms that
return it unchanged). -/
def get_unknown_core (name : String) : List Char → RustRes FuncName
  | [] => .ok (.Unknown name 0)
  | c :: rest =>
    if c.utf8Size ≠ 1 then .panic
    else if (c ≠ '_' ∧ c ≠ '@') ∨ hasColonOrParen rest then .ok (.Unknown name 0)
    else match rsplit2 rest with
      | none => .ok (.Unknown (if c = '_' then String.mk rest else name) 0)
      | some (base, trailing) =>
        match parseU32 trailing with
        | some n =>
          .ok (.Unknown (String.mk base)
                (if c = '@' then (if n > 8 then n - 8 else 0) else n))
        | none => .ok (.Unknown (if c = '_' then String.mk rest else name) 0)

/-- `FuncName::get_unknown`. `name.split_at(1)` panics when the first
character of a non-empty string occupies more than one UTF-8 byte. -/
def get_unknown (name : String) : RustRes FuncName :=
  get_unknown_core name name.data

/-! ## The catalog (`TypeDumper`) -/

/-- `TypeDumper`: the `TypeFinder` is modelled as a partial map from
`TypeIndex` to raw records (`none` = `finder.find` fails), the
forward-reference size table `fwd` as an association list where a later
insert is prepended (so lookup is last-write-wins, as for the hash map),
and `ptr_size` is the target pointer width. -/
structure TypeDumper where
  finder : Nat → Option RawType
  fwd : List (String × Nat)
  ptr_size : Nat

/-- The linkage name preferred by `types.rs`: the unique (mangled) name
when present, else the display name. -/
def linkageOf (uniq : Option String) (nm : String) : String :=
  uniq.getD nm

/-- One step of the construction scan of `TypeDumper::new`: a Class or
Union record that parses and is not a forward reference inserts
`(linkage_name, size)` into the table. -/
def scanStep (acc : List (String × Nat)) (r : RawType) : List (String × Nat) :=
  match r with
  | .parsed (.Class t) =>
    if !t.forward_reference then (linkageOf t.unique_name t.name, t.size) :: acc else acc
  | .parsed (.Union t) =>
    if !t.forward_reference then (linkageOf t.unique_name t.name, t.size) :: acc else acc
  | _ => acc

/-- The full construction scan over the record stream. -/
def scanFwd (records : List RawType) : List (String × Nat) :=
  records.foldl scanStep []

/-- `TypeDumper::new`: the finder indexes the record stream by position
and the forward-reference table is built by the single scan. -/
def TypeDumper.new (records : List RawType) (ptr_size : Nat) : TypeDumper :=
  { finder := fun i => records[i]?
    fwd := scanFwd records
    ptr_size := ptr_size }

/-- `TypeDumper::find`: `finder.find(index).unwrap()` panics when the
index is absent; `parse()` failure is a `Result::Err`. -/
def TypeDumper.find (d : TypeDumper) (index : Nat) : RustRes TypeData :=
  match d.finder index with
  | none => .panic
  | some .unparsable => .err
  | some (.parsed t) => .ok t

/-- `TypeDumper::get_class_size`: a forward reference looks its linkage
name up in the table and `unwrap`s the result (missing entry = panic). -/
def TypeDumper.get_class_size (d : TypeDumper) (t : ClassType) : RustRes Nat :=
  if t.forward_reference then
    match (d.fwd.lookup (linkageOf t.unique_name t.name) : Option Nat) with
    | some s => .ok s
    | none => .panic
  else .ok t.size

/-- `TypeDumper::get_union_size` (same shape as for classes). -/
def TypeDumper.get_union_size (d : TypeDumper) (t : UnionType) : RustRes Nat :=
  if t.forward_reference then
    match (d.fwd.lookup (linkageOf t.unique_name t.name) : Option Nat) with
    | some s => .ok s
    | none => .panic
  else .ok t.size

/-- The fixed size table for primitive kinds in `get_data_size`. -/
def primitiveSize (k : PrimitiveKind) : Nat :=
  match k with
  | .NoType | .Void => 0
  | .Char | .UChar | .RChar | .I8 | .U8 | .Bool8 => 1
  | .WChar | .RChar16 | .I16 | .U16 | .F16 | .Bool16 => 2
  | .RChar32 | .I32 | .U32 | .F32 | .F32PP | .Bool32 | .HRESULT => 4
  | .I64 | .U64 | .F64 | .Complex32 | .Bool64 => 8
  | .I128 | .U128 | .F128 | .Complex64 => 16
  | .F48 => 6
  | .F80 => 10
  | .Complex80 => 20
  | .Complex128 => 32

/-- Width of the variant holding an enumerator value. -/
def variantSize (v : Variant) : Nat :=
  match v with
  | .I8 | .U8 => 1
  | .I16 | .U16 => 2
  | .I32 | .U32 => 4
  | .I64 | .U64 => 8

/-- `TypeDumper::check_this_type`: dereference the this-pointer record;
it compares the pointee index with the class index, and any non-pointer
record compares false. Lookup failures propagate via `?`. -/
def TypeDumper.check_this_type (d : TypeDumper) (this cls : Nat) : RustRes Bool :=
  rbind (d.find this) fun t =>
    match t with
    | .Pointer p => .ok (p.underlying_type == cls)
    | _ => .ok false

/-- The primitive name table of `dump_data`. -/
def primitiveName (k : PrimitiveKind) : String :=
  match k with
  | .NoType => "<NoType>"
  | .Void => "void"
  | .Char => "signed char"
  | .UChar => "unsigned char"
  | .RChar => "char"
  | .WChar => "wchar_t"
  | .RChar16 => "char16_t"
  | .RChar32 => "char32_t"
  | .I8 => "signed char"
  | .U8 => "unsigned char"
  | .I16 => "short"
  | .U16 => "unsigned short"
  | .I32 => "int"
  | .U32 => "unsigned int"
  | .I64 => "long long"
  | .U64 => "unsigned long long"
  | .I128 => "int128_t"
  | .U128 => "uint128_t"
  | .F16 => "float16_t"
  | .F32 => "float"
  | .F32PP => "float"
  | .F48 => "float48_t"
  | .F64 => "double"
  | .F80 => "long double"
  | .F128 => "long double"
  | .Complex32 => "complex<float>"
  | .Complex64 => "complex<double>"
  | .Complex80 => "complex<long double>"
  | .Complex128 => "complex<long double>"
  | .Bool8 => "bool"
  | .Bool16 => "bool16_t"
  | .Bool32 => "bool32_t"
  | .Bool64 => "bool64_t"
  | .HRESULT => "HRESULT"

/-- The keyword of `ClassKind` in `dump_data`. -/
def classKindName (k : ClassKind) : String :=
  match k with
  | .Class => "class"
  | .Interface => "interface"
  | .Struct => "struct"

/-- The per-level marker of `dump_attributes`. -/
def pointerModeText (m : PointerMode) : String :=
  match m with
  | .Pointer => "*"
  | .LValueReference => "&"
  | .Member => "::*"
  | .MemberFunction => "::"
  | .RValueReference => "&&"

/-- `TypeDumper::dump_attributes`: fold the per-level markers then trim
leading whitespace. -/
def dump_attributes (attrs : List PointerAttributes) : String :=
  (attrs.foldl
    (fun buf attr =>
      (if attr.is_const then buf ++ " const " else buf) ++ pointerModeText attr.mode)
    "").trimLeft

/-- `TypeDumper::fix_return`: append a space to a non-empty return text. -/
def fix_return (name : String) : String :=
  if name ≠ "" then name ++ " " else name

/-- The division fold of `dump_array`, taken over the reversed
(innermost-first) dimension list; the running `size` starts at the base
element size and each step divides the current cumulative size by it
(Rust `u32` division by zero panics, hence `none`). -/
def renderDimsRev : List Nat → Nat → Option (List String)
  | [], _ => some []
  | x :: xs, size =>
    if size = 0 then none
    else match renderDimsRev xs x with
      | none => none
      | some rest => some (("[" ++ toString (x / size) ++ "]") :: rest)

/-! ## The mutually recursive size calculator and printer

Every function of the cluster takes explicit fuel and consumes one unit
per call; the source recursion is over an arbitrary index graph, so the
embedding is fuel-indexed, with `.oof` marking exhaustion. -/

mutual

/-- `TypeDumper::get_type_size`: resolve and size; a `parse()` failure
degrades to 0, but the `unwrap` panic inside `find` propagates. -/
def get_type_size (d : TypeDumper) : Nat → Nat → RustRes Nat
  | 0, _ => .oof
  | fuel+1, index =>
    match d.find index with
    | .ok t => get_data_size d fuel t
    | .err => .ok 0
    | .panic => .panic
    | .oof => .oof

/-- `TypeDumper::get_data_size`. -/
def get_data_size (d : TypeDumper) : Nat → TypeData → RustRes Nat
  | 0, _ => .oof
  | fuel+1, t =>
    match t with
    | .Primitive p =>
      if p.indirection then .ok d.ptr_size else .ok (primitiveSize p.kind)
    | .Class c => d.get_class_size c
    | .MemberFunction _ => .ok d.ptr_size
    | .Procedure _ => .ok d.ptr_size
    | .Pointer p => .ok p.attributes.size
    | .Array a =>
      match a.dimensions.getLast? with
      | some n => .ok n
      | none => .panic
    | .Union u => d.get_union_size u
    | .Enumeration e => get_type_size d fuel e.underlying_type
    | .Enumerate e => .ok (variantSize e.value)
    | .Modifier m => get_type_size d fuel m.underlying_type
    | .ArgumentList _ => .ok 0
    | .Other _ => .ok 0

/-- `TypeDumper::dump_index`: resolve (propagating failure via `?`) and
print. -/
def dump_index (d : TypeDumper) : Nat → Nat → RustRes String
  | 0, _ => .oof
  | fuel+1, index =>
    match d.find index with
    | .ok t => dump_data d fuel t
    | .err => .err
    | .panic => .panic
    | .oof => .oof

/-- `TypeDumper::dump_data`: the printer over a parsed record. -/
def dump_data (d : TypeDumper) : Nat → TypeData → RustRes String
  | 0, _ => .oof
  | fuel+1, t =>
    match t with
    | .Primitive p =>
      .ok (if p.indirection then primitiveName p.kind ++ " *"
           else primitiveName p.kind)
    | .Class c => .ok (classKindName c.kind ++ " " ++ c.name)
    | .MemberFunction m =>
      rbind (dump_method_parts d fuel m) fun r =>
        .ok (fix_return r.2.1 ++ "()(" ++ r.2.2 ++ ")")
    | .Procedure p =>
      rbind (dump_procedure_parts d fuel p) fun r =>
        .ok (fix_return r.1 ++ "()(" ++ r.2 ++ ")")
    | .ArgumentList a => dump_arglist d fuel a.arguments
    | .Pointer p => dump_ptr d fuel [p.attributes] p
    | .Array a => dump_array d fuel a
    | .Union u => .ok ("union " ++ u.name)
    | .Enumeration e => .ok ("enum " ++ e.name)
    | .Enumerate e => .ok ("enum class " ++ e.name)
    | .Modifier m =>
      rbind (dump_index d fuel m.underlying_type) fun u =>
        .ok (if m.constant then "const " ++ u else u)
    | .Other tag => .ok ("unhandled type /* " ++ tag ++ " */")

/-- The `ArgumentList` arm of `dump_data`: dump each entry left to
right, comma-separated (empty text for an empty list). -/
def dump_arglist (d : TypeDumper) : Nat → List Nat → RustRes String
  | 0, _ => .oof
  | _+1, [] => .ok ""
  | fuel+1, [i] => dump_index d fuel i
  | fuel+1, i :: rest =>
    rbind (dump_index d fuel i) fun s =>
      rbind (dump_arglist d fuel rest) fun r => .ok (s ++ ", " ++ r)

/-- `TypeDumper::dump_ptr`: walk nested pointers accumulating attribute
levels, then render around the terminal type. The `chars().last()`
`unwrap` panics when the terminal text is empty. -/
def dump_ptr (d : TypeDumper) :
    Nat → List PointerAttributes → PointerType → RustRes String
  | 0, _, _ => .oof
  | fuel+1, attrs, ptr =>
    match d.find ptr.underlying_type with
    | .ok (.Pointer p) => dump_ptr d fuel (attrs ++ [p.attributes]) p
    | .ok (.MemberFunction m) =>
      rbind (dump_method_parts d fuel m) fun r =>
        .ok (fix_return r.2.1 ++ "(" ++ dump_attributes attrs ++ ")(" ++
             r.2.2 ++ ")")
    | .ok (.Procedure p) =>
      rbind (dump_procedure_parts d fuel p) fun r =>
        .ok (fix_return r.1 ++ "(" ++ dump_attributes attrs ++ ")(" ++
             r.2 ++ ")")
    | .ok t =>
      rbind (dump_data d fuel t) fun ts =>
        match ts.data.getLast? with
        | none => .panic
        | some c =>
          .ok (if c = '*' ∨ c = '&' then ts ++ dump_attributes attrs
               else ts ++ " " ++ dump_attributes attrs)
    | .err => .err
    | .panic => .panic
    | .oof => .oof

/-- `TypeDumper::get_array_info`: collect stored dimensions
outer-to-inner down to the first non-array element record; each level
reads `dimensions[0]` (panic when the list is empty). -/
def get_array_info (d : TypeDumper) : Nat → ArrayType → RustRes (List Nat × TypeData)
  | 0, _ => .oof
  | fuel+1, arr =>
    match arr.dimensions.head? with
    | none => .panic
    | some d0 =>
      match d.find arr.element_type with
      | .ok (.Array a) =>
        match get_array_info d fuel a with
        | .ok (dims, base) => .ok (d0 :: dims, base)
        | .err => .err
        | .panic => .panic
        | .oof => .oof
      | .ok t => .ok ([d0], t)
      | .err => .err
      | .panic => .panic
      | .oof => .oof

/-- `TypeDumper::dump_array`: collect dimensions, size the base element,
divide adjacent cumulative sizes innermost-to-outermost, restore
outer-to-inner order and append the brackets to the base text. -/
def dump_array (d : TypeDumper) : Nat → ArrayType → RustRes String
  | 0, _ => .oof
  | fuel+1, arr =>
    match get_array_info d fuel arr with
    | .ok (dimensions, base) =>
      match get_data_size d fuel base with
      | .ok base_size =>
        match renderDimsRev dimensions.reverse base_size with
        | none => .panic
        | some revs =>
          rbind (dump_data d fuel base) fun bt =>
            .ok (bt ++ String.join revs.reverse)
      | .err => .err
      | .panic => .panic
      | .oof => .oof
    | .err => .err
    | .panic => .panic
    | .oof => .oof

/-- `TypeDumper::dump_method_parts`: return text (suppressed for
constructors and hidden-slot returns), argument text, the static flag
(no this-pointer), and the this-pointer elision rule. -/
def dump_method_parts (d : TypeDumper) :
    Nat → MemberFunctionType → RustRes (Bool × String × String)
  | 0, _ => .oof
  | fuel+1, t =>
    rbind (if t.attributes.is_constructor || t.attributes.cxx_return_udt
           then .ok "" else dump_index d fuel t.return_type) fun ret_typ =>
    rbind (dump_index d fuel t.argument_list) fun args_typ =>
      match t.this_pointer_type with
      | none => .ok (true, ret_typ, args_typ)
      | some this_typ =>
        rbind (d.check_this_type this_typ t.class_type) fun same =>
          if same then .ok (false, ret_typ, args_typ)
          else
            rbind (dump_index d fuel this_typ) fun this_s =>
              .ok (false, ret_typ,
                   if args_typ = "" then this_s else this_s ++ ", " ++ args_typ)

/-- `TypeDumper::dump_procedure_parts`. -/
def dump_procedure_parts (d : TypeDumper) :
    Nat → ProcedureType → RustRes (String × String)
  | 0, _ => .oof
  | fuel+1, t =>
    rbind (match t.return_type with
           | some rt =>
             if t.attributes.is_constructor || t.attributes.cxx_return_udt
             then .ok "" else dump_index d fuel rt
           | none => .ok "") fun ret_typ =>
    rbind (dump_index d fuel t.argument_list) fun args_typ =>
      .ok (ret_typ, args_typ)

end

/-! ## Name resolution (`demangle`, `dump_function`) -/

/-- `TypeDumper::demangle`. The external demangler is a parameter:
`detect` is `Name::detect_language != Language::Unknown` and `dem` is
`name.demangle(...)`. An unknown language, and a demangler output that
is identical to its input, fall back to `FuncName::get_unknown`. -/
def demangle (detect : String → Bool) (dem : String → Option String)
    (ident : String) : RustRes FuncName :=
  if detect ident = false then get_unknown ident
  else
    match dem ident with
    | some s => if s = ident then get_unknown s else .ok (.Undecorated s)
    | none => .ok (.Undecorated ident)

/-- `TypeDumper::dump_function`: empty names short-circuit to the
placeholder, the sentinel index 0 routes to the demangler, and any other
index is resolved (failure propagating via `?`) and rendered; a
non-function record degrades to the bare name. -/
def dump_function (d : TypeDumper) (detect : String → Bool)
    (dem : String → Option String) (fuel : Nat) (name : String)
    (index : Nat) : RustRes FuncName :=
  if name = "" then .ok (.Undecorated "<name omitted>")
  else if index = 0 then demangle detect dem name
  else
    match d.find index with
    | .ok (.MemberFunction t) =>
      rbind (dump_method_parts d fuel t) fun r =>
        .ok (.Undecorated ((if r.1 then "static " else "") ++
              fix_return r.2.1 ++ name ++ "(" ++ r.2.2 ++ ")"))
    | .ok (.Procedure t) =>
      rbind (dump_procedure_parts d fuel t) fun r =>
        .ok (.Undecorated (fix_return r.1 ++ name ++ "(" ++ r.2 ++ ")"))
    | .ok _ => .ok (.Undecorated name)
    | .err => .err
    | .panic => .panic
    | .oof => .oof

/-- The return-text computation of `dump_method_parts`, factored out for
statement purposes: suppressed for constructors and hidden-ABI-slot
returns, else the printed return type. -/
def method_ret_typ (d : TypeDumper) (fuel : Nat) (t : MemberFunctionType) :
    RustRes String :=
  if t.attributes.is_constructor || t.attributes.cxx_return_udt
  then .ok "" else dump_index d fuel t.return_type

/-- Whether a string is empty or starts with a single-byte UTF-8
character, i.e. whether Rust's `split_at(1)` is safe on it. -/
def firstByteOk (name : String) : Bool :=
  match name.data with
  | [] => true
  | c :: _ => c.utf8Size == 1

/-! ## Theorems -/

/-- Shared totality lemma: `get_unknown` returns an `Unknown` value for
the empty string and for any string whose first character is a single
UTF-8 byte. -/
theorem get_unknown_isOk (name : String) (h : firstByteOk name = true) :
    ∃ b s, get_unknown name = .ok (.Unknown b s) := by
  unfold get_unknown
  cases hnd : name.data with
  | nil => exact ⟨name, 0, rfl⟩
  | cons c rest =>
    have hsz : c.utf8Size = 1 := by
      rw [firstByteOk, hnd] at h
      simpa using h
    rw [get_unknown_core]
    rw [if_neg (by simp [hsz])]
    split
    · exact ⟨name, 0, rfl⟩
    · rcases hr : rsplit2 rest with _ | ⟨b0, t0⟩
      · simp only [hr]
        exact ⟨_, _, rfl⟩
      · simp only [hr]
        rcases hp : parseU32 t0 with _ | n
        · simp only [hp]
          exact ⟨_, _, rfl⟩
        · simp only [hp]
          exact ⟨_, _, rfl⟩

/-- C9: for every catalog, demangler and type index (sentinel or not),
resolving an empty display name yields `Undecorated "<name omitted>"`
before any type lookup or demangling is attempted. -/
theorem dump_function_empty_name (d : TypeDumper) (detect : String → Bool)
    (dem : String → Option String) (fuel index : Nat) :
    dump_function d detect dem fuel "" index =
      .ok (.Undecorated "<name omitted>") := by
  simp [dump_function]

/-- C4: for every name that begins with `_` or `@`, whose remainder
contains neither `:` nor `(`, and whose segment after the last `@` of
the remainder parses as an unsigned integer `n`, `get_unknown` returns
`Unknown (base, n)` for the `_` form and `Unknown (base, n - 8 floored
at 0)` for the `@` form, with `base` the remainder before that last `@`. -/
theorem get_unknown_stack_size (name : String) (c : Char) (rest : List Char)
    (base trailing : List Char) (n : Nat)
    (hdata : name.data = c :: rest)
    (hc : c = '_' ∨ c = '@')
    (hnocp : hasColonOrParen rest = false)
    (hsplit : rsplit2 rest = some (base, trailing))
    (hparse : parseU32 trailing = some n) :
    get_unknown name =
      .ok (.Unknown (String.mk base)
            (if c = '@' then (if n > 8 then n - 8 else 0) else n)) := by
  unfold get_unknown
  rw [hdata, get_unknown_core]
  rcases hc with rfl | rfl <;>
    simp [hnocp, hsplit, hparse, show ('_' : Char).utf8Size = 1 from by decide,
      show ('@' : Char).utf8Size = 1 from by decide]

/-- Witness for C4 at the three spec fixtures. -/
theorem get_unknown_stack_size_fixtures :
    get_unknown "_foo@123" = .ok (.Unknown "foo" 123) ∧
    get_unknown "@foo@123" = .ok (.Unknown "foo" 115) ∧
    get_unknown "@foo@3" = .ok (.Unknown "foo" 0) := by
  refine ⟨?_, ?_, ?_⟩
  · exact (get_unknown_stack_size "_foo@123" '_' "foo@123".data "foo".data
      "123".data 123 (by decide) (Or.inl rfl) (by decide) (by decide)
      (by decide)).trans (by decide)
  · exact (get_unknown_stack_size "@foo@123" '@' "foo@123".data "foo".data
      "123".data 123 (by decide) (Or.inr rfl) (by decide) (by decide)
      (by decide)).trans (by decide)
  · exact (get_unknown_stack_size "@foo@3" '@' "foo@3".data "foo".data
      "3".data 3 (by decide) (Or.inr rfl) (by decide) (by decide)
      (by decide)).trans (by decide)

/-- Counterexample to C8 as stated: on `_foo@123()` the parser keeps the
leading underscore (the code bails out with the original name, not the
stripped one), as the spec fixture itself records. -/
theorem get_unknown_colon_paren_cex :
    get_unknown "_foo@123()" = .ok (.Unknown "_foo@123()" 0) ∧
    FuncName.Unknown "_foo@123()" 0 ≠ FuncName.Unknown "foo@123()" 0 := by
  constructor
  · decide
  · decide

/-- C8 (amended): for every name beginning with `_` or `@` whose
remainder contains `:` or `(`, the parser bails out with the original
input name unchanged (no marker stripping) and estimated size 0. -/
theorem get_unknown_colon_paren (name : String) (c : Char) (rest : List Char)
    (hdata : name.data = c :: rest)
    (hc : c = '_' ∨ c = '@')
    (hcp : hasColonOrParen rest = true) :
    get_unknown name = .ok (.Unknown name 0) := by
  unfold get_unknown
  rw [hdata, get_unknown_core]
  rcases hc with rfl | rfl <;>
    simp [hcp, show ('_' : Char).utf8Size = 1 from by decide,
      show ('@' : Char).utf8Size = 1 from by decide]

/-- Witness for C8 (amended) at the spec fixture. -/
theorem get_unknown_colon_paren_w :
    get_unknown "_foo@123()" = .ok (.Unknown "_foo@123()" 0) :=
  get_unknown_colon_paren "_foo@123()" '_' "foo@123()".data (by decide)
    (Or.inl rfl) (by decide)

/-- Counterexample to C10 as stated: a name whose first character
occupies two UTF-8 bytes makes the one-byte `split_at` panic. -/
theorem get_unknown_multibyte_cex : get_unknown "é" = .panic := by decide

/-- C10 (amended): `get_unknown` is total (returning an `Unknown` value)
on the empty string and on every string whose first character is a
single UTF-8 byte; a multi-byte first character panics in the one-byte
split. -/
theorem get_unknown_total_single_byte (name : String)
    (h : firstByteOk name = true) :
    ∃ b s, get_unknown name = .ok (.Unknown b s) :=
  get_unknown_isOk name h

/-- Witness for C10 (amended). -/
theorem get_unknown_total_single_byte_w :
    ∃ b s, get_unknown "foobar" = .ok (.Unknown b s) :=
  get_unknown_total_single_byte "foobar" (by decide)

/-- `get_class_size` never returns the error variant (it is `ok` or a
panic). -/
theorem get_class_size_ne_err (d : TypeDumper) (c : ClassType) :
    d.get_class_size c ≠ .err := by
  rw [TypeDumper.get_class_size]
  split
  · split <;> simp
  · simp

/-- `get_union_size` never returns the error variant. -/
theorem get_union_size_ne_err (d : TypeDumper) (u : UnionType) :
    d.get_union_size u ≠ .err := by
  rw [TypeDumper.get_union_size]
  split
  · split <;> simp
  · simp

/-- Joint no-error lemma for the size calculator: parse failures are
absorbed into size 0, so neither `get_type_size` nor `get_data_size`
ever returns the error variant (they return a size, panic, or run out
of fuel). -/
theorem size_no_err (fuel : Nat) :
    ∀ d : TypeDumper,
      (∀ index, get_type_size d fuel index ≠ .err) ∧
      (∀ t, get_data_size d fuel t ≠ .err) := by
  induction fuel with
  | zero =>
    intro d
    exact ⟨fun _ => by simp [get_type_size], fun _ => by simp [get_data_size]⟩
  | succ n ih =>
    intro d
    refine ⟨fun index => ?_, fun t => ?_⟩
    · rw [get_type_size]
      rcases hf : d.find index with t | _ | _ | _ <;> simp only [hf]
      · exact (ih d).2 t
      · simp
      · simp
      · simp
    · cases t with
      | Primitive p => rw [get_data_size]; split <;> simp
      | Class c => rw [get_data_size]; exact get_class_size_ne_err d c
      | Union u => rw [get_data_size]; exact get_union_size_ne_err d u
      | Enumeration e => rw [get_data_size]; exact (ih d).1 e.underlying_type
      | Enumerate e => simp [get_data_size]
      | Pointer p => simp [get_data_size]
      | Array a => rw [get_data_size]; cases a.dimensions.getLast? <;> simp
      | Procedure p => simp [get_data_size]
      | MemberFunction m => simp [get_data_size]
      | Modifier m => rw [get_data_size]; exact (ih d).1 m.underlying_type
      | ArgumentList a => simp [get_data_size]
      | Other tag => simp [get_data_size]

/-- C1 (amended): a `parse()` failure at the queried index degrades to
size 0, and size queries never return the error variant (internal parse
failures during recursion are absorbed the same way); however a lookup
miss — an index absent from the catalog, a forward-declared class or
union whose linkage name is missing from the size table, or an empty
dimension list — panics instead of degrading to 0 (see the
counterexample). -/
theorem get_type_size_no_err (d : TypeDumper) (fuel index : Nat) :
    (d.finder index = some .unparsable →
       get_type_size d (fuel+1) index = .ok 0) ∧
    get_type_size d fuel index ≠ .err := by
  constructor
  · intro h
    have hf : d.find index = .err := by rw [TypeDumper.find, h]
    rw [get_type_size]
    simp only [hf]
  · exact (size_no_err fuel d).1 index

/-- A catalog holding a single forward-declared struct whose linkage
name has no entry in the forward-reference table. -/
def dFwdMiss : TypeDumper :=
  { finder := fun i =>
      if i = 0 then
        some (.parsed (.Class { kind := .Struct, forward_reference := true,
                                name := "Foo", unique_name := none, size := 0 }))
      else none
    fwd := []
    ptr_size := 8 }

/-- Counterexample to C1 as stated: a record-lookup failure during the
size computation (here a forward reference whose name is missing from
the table) panics — `fwd.get(&name).unwrap()` — instead of degrading to
a returned size of 0. -/
theorem get_type_size_fwd_miss_cex : get_type_size dFwdMiss 2 0 = .panic := by
  decide

/-- A catalog in which every index resolves to a record that fails to
parse. -/
def dUnparsable : TypeDumper :=
  { finder := fun _ => some .unparsable, fwd := [], ptr_size := 8 }

/-- Witness for C1 (amended). -/
theorem get_type_size_no_err_w : get_type_size dUnparsable 1 0 = .ok 0 :=
  (get_type_size_no_err dUnparsable 0 0).1 rfl

/-- C6 (amended): for the sentinel type identifier 0, name resolution
always produces a `FuncName` whenever the name is empty or starts with a
single-byte character (demangling failures degrade to the original or
stripped name); but for a non-sentinel identifier whose record fails to
parse, `dump_function` propagates the error outward. -/
theorem dump_function_sentinel_total (d : TypeDumper) (detect : String → Bool)
    (dem : String → Option String) (fuel : Nat) (name : String)
    (h : firstByteOk name = true) :
    (∃ fn, dump_function d detect dem fuel name 0 = .ok fn) ∧
    (∀ index, index ≠ 0 → name ≠ "" → d.finder index = some .unparsable →
       dump_function d detect dem fuel name index = .err) := by
  constructor
  · by_cases hname : name = ""
    · exact ⟨.Undecorated "<name omitted>", by simp [dump_function, hname]⟩
    · rw [dump_function, if_neg hname, if_pos rfl, demangle]
      by_cases hd : detect name = false
      · rw [if_pos hd]
        obtain ⟨b, s, hb⟩ := get_unknown_isOk name h
        exact ⟨_, hb⟩
      · rw [if_neg hd]
        cases hdm : dem name with
        | none => exact ⟨_, rfl⟩
        | some s =>
          suffices hy : ∃ fn,
              (if s = name then get_unknown s
               else RustRes.ok (FuncName.Undecorated s)) = RustRes.ok fn by
            exact hy
          by_cases hs : s = name
          · rw [if_pos hs]
            obtain ⟨b, s2, hb⟩ := get_unknown_isOk s (by rw [hs]; exact h)
            exact ⟨_, hb⟩
          · rw [if_neg hs]
            exact ⟨_, rfl⟩
  · intro index hi hn hup
    have hf : d.find index = .err := by rw [TypeDumper.find, hup]
    rw [dump_function, if_neg hn, if_neg hi]
    simp only [hf]

/-- Counterexample to C6 as stated: with a non-sentinel identifier whose
record fails to parse, `dump_function` returns an error (Rust
`self.find(index)?`) instead of a displayable `FuncName`. -/
theorem dump_function_err_cex :
    dump_function dUnparsable (fun _ => false) (fun _ => none) 1 "f" 1 =
      .err := by
  decide

/-- Witness for C6 (amended). -/
theorem dump_function_sentinel_total_w :
    ∃ fn, dump_function dUnparsable (fun _ => false) (fun _ => none) 1 "abc" 0 =
      .ok fn :=
  (dump_function_sentinel_total dUnparsable (fun _ => false) (fun _ => none)
    1 "abc" (by decide)).1

/-- C7 (amended): with target pointer width 8, `size_of` returns 8 for
every Procedure and every MemberFunction record; for a Pointer record it
returns the byte width encoded in the record's own pointer attributes —
which equals 8 exactly when those attributes encode 8, not by virtue of
the target width (see the counterexample). -/
theorem size_pointer_width (d : TypeDumper) (fuel index : Nat)
    (h8 : d.ptr_size = 8) :
    (∀ t : ProcedureType,
       d.finder index = some (.parsed (.Procedure t)) →
       get_type_size d (fuel+2) index = .ok 8) ∧
    (∀ t : MemberFunctionType,
       d.finder index = some (.parsed (.MemberFunction t)) →
       get_type_size d (fuel+2) index = .ok 8) ∧
    (∀ t : PointerType,
       d.finder index = some (.parsed (.Pointer t)) →
       get_type_size d (fuel+2) index = .ok t.attributes.size) := by
  refine ⟨fun t ht => ?_, fun t ht => ?_, fun t ht => ?_⟩
  · have hf : d.find index = .ok (.Procedure t) := by rw [TypeDumper.find, ht]
    rw [get_type_size]
    simp only [hf]
    simp [get_data_size, h8]
  · have hf : d.find index = .ok (.MemberFunction t) := by
      rw [TypeDumper.find, ht]
    rw [get_type_size]
    simp only [hf]
    simp [get_data_size, h8]
  · have hf : d.find index = .ok (.Pointer t) := by rw [TypeDumper.find, ht]
    rw [get_type_size]
    simp only [hf]
    simp [get_data_size]

/-- A 64-bit-target catalog holding one Pointer record whose attributes
encode a 4-byte width. -/
def ptr32rec : PointerType :=
  { underlying_type := 9,
    attributes := { size := 4, is_const := false, mode := .Pointer } }

def dPtr32 : TypeDumper :=
  TypeDumper.new [.parsed (.Pointer ptr32rec)] 8

/-- Counterexample to C7 as stated: on a width-8 target the Pointer
record sizes to its attribute-encoded width 4, not 8. -/
theorem size_pointer_width_cex :
    dPtr32.ptr_size = 8 ∧ get_type_size dPtr32 2 0 = .ok 4 ∧
      get_type_size dPtr32 2 0 ≠ .ok 8 := by
  refine ⟨rfl, by decide, by decide⟩

/-- A 64-bit-target catalog holding one Procedure record. -/
def proc64rec : ProcedureType :=
  { attributes := { is_constructor := false, cxx_return_udt := false },
    return_type := none, argument_list := 5 }

def dProc64 : TypeDumper :=
  TypeDumper.new [.parsed (.Procedure proc64rec)] 8

/-- Witness for C7 (amended). -/
theorem size_pointer_width_w : get_type_size dProc64 2 0 = .ok 8 :=
  (size_pointer_width dProc64 0 0 rfl).1 _ rfl

/-- Whether a raw record is a non-forward-declared Class or Union
definition whose linkage name is `L` (i.e. whether the construction scan
inserts an entry for `L` from it). -/
def record_defines (L : String) : RawType → Bool
  | .parsed (.Class t) =>
    !t.forward_reference && (linkageOf t.unique_name t.name == L)
  | .parsed (.Union t) =>
    !t.forward_reference && (linkageOf t.unique_name t.name == L)
  | _ => false

/-- A scan step over a record that does not define `L` leaves the lookup
of `L` unchanged. -/
theorem lookup_scanStep_of_not_defines (L : String) (acc : List (String × Nat))
    (r : RawType) (h : record_defines L r = false) :
    (scanStep acc r).lookup L = acc.lookup L := by
  cases r with
  | unparsable => rfl
  | parsed t =>
    cases t with
    | Class c =>
      by_cases hf : c.forward_reference
      · show (if !c.forward_reference then _ else acc).lookup L = acc.lookup L
        simp [hf]
      · have hL : (linkageOf c.unique_name c.name == L) = false := by
          rw [record_defines] at h
          simpa [hf] using h
        have hLn : (L == linkageOf c.unique_name c.name) = false := by
          rw [beq_eq_false_iff_ne] at hL ⊢
          exact fun he => hL he.symm
        show (if !c.forward_reference then
                (linkageOf c.unique_name c.name, c.size) :: acc
              else acc).lookup L = acc.lookup L
        simp [hf, List.lookup, hLn]
    | Union u =>
      by_cases hf : u.forward_reference
      · show (if !u.forward_reference then _ else acc).lookup L = acc.lookup L
        simp [hf]
      · have hL : (linkageOf u.unique_name u.name == L) = false := by
          rw [record_defines] at h
          simpa [hf] using h
        have hLn : (L == linkageOf u.unique_name u.name) = false := by
          rw [beq_eq_false_iff_ne] at hL ⊢
          exact fun he => hL he.symm
        show (if !u.forward_reference then
                (linkageOf u.unique_name u.name, u.size) :: acc
              else acc).lookup L = acc.lookup L
        simp [hf, List.lookup, hLn]
    | Primitive p => rfl
    | Enumeration e => rfl
    | Enumerate e => rfl
    | Pointer p => rfl
    | Array a => rfl
    | Procedure p => rfl
    | MemberFunction m => rfl
    | Modifier m => rfl
    | ArgumentList a => rfl
    | Other tag => rfl

/-- Folding the scan over records none of which defines `L` leaves the
lookup of `L` unchanged. -/
theorem lookup_scan_of_no_defines (L : String) (rest : List RawType) :
    ∀ acc : List (String × Nat),
      (∀ r ∈ rest, record_defines L r = false) →
      (List.foldl scanStep acc rest).lookup L = acc.lookup L := by
  induction rest with
  | nil => intro acc _; rfl
  | cons r rs ih =>
    intro acc h
    rw [List.foldl_cons, ih _ (fun x hx => h x (List.mem_cons_of_mem _ hx)),
        lookup_scanStep_of_not_defines L acc r (h r (List.mem_cons_self _ _))]

/-- Position of the middle element of an append. -/
theorem getElem_append_mid {α : Type} (pre : List α) (x : α) (rest : List α) :
    (pre ++ x :: rest)[pre.length]? = some x := by
  induction pre with
  | nil => simp
  | cons a as ih => simpa using ih

/-- Positions after the middle element of an append. -/
theorem getElem_append_after {α : Type} (pre : List α) (x : α)
    (rest : List α) (k : Nat) :
    (pre ++ x :: rest)[pre.length + 1 + k]? = rest[k]? := by
  induction pre with
  | nil =>
    show (x :: rest)[0 + 1 + k]? = rest[k]?
    have h : 0 + 1 + k = k + 1 := by omega
    rw [h, List.getElem?_cons_succ]
  | cons a as ih =>
    show (a :: (as ++ x :: rest))[(a :: as).length + 1 + k]? = rest[k]?
    have h : (a :: as).length + 1 + k = (as.length + 1 + k) + 1 := by
      simp [List.length_cons]
      omega
    rw [h, List.getElem?_cons_succ, ih]

/-- C2: in a catalog built from a record stream containing a
non-forward-declared Class of linkage name "Foo" and stored size 24,
followed (in any later position) by a forward-declared Class with the
same linkage name — and no further record redefining "Foo" after the
defining one — `size_of` at either record's index returns 24: the
forward declaration resolves through the name-to-size table populated
during the single construction scan. -/
theorem fwd_round_trip (pre rest : List RawType) (ps fuel k : Nat)
    (tD tF : ClassType)
    (hD : tD.forward_reference = false)
    (hDn : linkageOf tD.unique_name tD.name = "Foo")
    (hDs : tD.size = 24)
    (hF : tF.forward_reference = true)
    (hFn : linkageOf tF.unique_name tF.name = "Foo")
    (hk : rest[k]? = some (.parsed (.Class tF)))
    (hno : ∀ r ∈ rest, record_defines "Foo" r = false) :
    get_type_size (TypeDumper.new (pre ++ .parsed (.Class tD) :: rest) ps)
      (fuel+2) pre.length = .ok 24 ∧
    get_type_size (TypeDumper.new (pre ++ .parsed (.Class tD) :: rest) ps)
      (fuel+2) (pre.length + 1 + k) = .ok 24 := by
  set d := TypeDumper.new (pre ++ .parsed (.Class tD) :: rest) ps with hd
  have hfwd : d.fwd.lookup "Foo" = some 24 := by
    show (scanFwd (pre ++ .parsed (.Class tD) :: rest)).lookup "Foo" = some 24
    rw [scanFwd, List.foldl_append, List.foldl_cons,
        lookup_scan_of_no_defines "Foo" rest _ hno]
    show (scanStep (List.foldl scanStep [] pre)
      (.parsed (.Class tD))).lookup "Foo" = some 24
    rw [scanStep]
    simp [hD, hDn, hDs, List.lookup]
  constructor
  · have hf : d.find pre.length = .ok (.Class tD) := by
      rw [TypeDumper.find]
      have hfind : d.finder pre.length = some (.parsed (.Class tD)) := by
        show (pre ++ .parsed (.Class tD) :: rest)[pre.length]? = _
        exact getElem_append_mid pre _ rest
      rw [hfind]
    rw [get_type_size]
    simp only [hf]
    show d.get_class_size tD = .ok 24
    simp [TypeDumper.get_class_size, hD, hDs]
  · have hf : d.find (pre.length + 1 + k) = .ok (.Class tF) := by
      rw [TypeDumper.find]
      have hfind : d.finder (pre.length + 1 + k) =
          some (.parsed (.Class tF)) := by
        show (pre ++ .parsed (.Class tD) :: rest)[pre.length + 1 + k]? = _
        rw [getElem_append_after, hk]
      rw [hfind]
    rw [get_type_size]
    simp only [hf]
    show d.get_class_size tF = .ok 24
    rw [TypeDumper.get_class_size]
    simp [hF, hFn, hfwd]

/-- The defining Class "Foo" of size 24. -/
def defFooRec : ClassType :=
  { kind := .Class, forward_reference := false, name := "Foo",
    unique_name := none, size := 24 }

/-- The forward-declared Class "Foo" (stored size 0, unused). -/
def fwdFooRec : ClassType :=
  { kind := .Class, forward_reference := true, name := "Foo",
    unique_name := none, size := 0 }

/-- Witness for C2: the two-record stream [defining Foo 24, fwd Foo]. -/
theorem fwd_round_trip_w :
    get_type_size (TypeDumper.new
      [.parsed (.Class defFooRec), .parsed (.Class fwdFooRec)] 8) 2 0 =
        .ok 24 ∧
    get_type_size (TypeDumper.new
      [.parsed (.Class defFooRec), .parsed (.Class fwdFooRec)] 8) 2 1 =
        .ok 24 := by
  simpa using fwd_round_trip [] [.parsed (.Class fwdFooRec)] 8 0 0
    defFooRec fwdFooRec rfl rfl rfl rfl rfl rfl (by decide)

/-- C5: a member function renders with the "static " prefix exactly when
no this-pointer type is present; when a this-pointer type is present the
function is not static, and the this parameter is omitted from the
argument text if and only if the this-pointer's pointee type index
equals the declaring class's type index — otherwise the this type's
printed text is placed as an explicit leading parameter before the
remaining arguments. -/
theorem method_signature_rules (d : TypeDumper) (detect : String → Bool)
    (dem : String → Option String) (fuel index : Nat)
    (t : MemberFunctionType) (name ret args : String)
    (hname : name ≠ "") (hidx : index ≠ 0)
    (hfind : d.finder index = some (.parsed (.MemberFunction t)))
    (hret : method_ret_typ d fuel t = .ok ret)
    (hargs : dump_index d fuel t.argument_list = .ok args) :
    (t.this_pointer_type = none →
       dump_function d detect dem (fuel+1) name index =
         .ok (.Undecorated
           ("static " ++ fix_return ret ++ name ++ "(" ++ args ++ ")"))) ∧
    (∀ ti p, t.this_pointer_type = some ti →
       d.finder ti = some (.parsed (.Pointer p)) →
       ((p.underlying_type = t.class_type →
           dump_function d detect dem (fuel+1) name index =
             .ok (.Undecorated
               (fix_return ret ++ name ++ "(" ++ args ++ ")"))) ∧
        (∀ this_s, p.underlying_type ≠ t.class_type →
           dump_index d fuel ti = .ok this_s →
           dump_function d detect dem (fuel+1) name index =
             .ok (.Undecorated (fix_return ret ++ name ++ "(" ++
               (if args = "" then this_s
                else this_s ++ ", " ++ args) ++ ")"))))) := by
  rw [method_ret_typ] at hret
  have hf : d.find index = .ok (.MemberFunction t) := by
    rw [TypeDumper.find, hfind]
  have hlift : ∀ z r a, dump_method_parts d (fuel+1) t = .ok (z, r, a) →
      dump_function d detect dem (fuel+1) name index =
        .ok (.Undecorated ((if z then "static " else "") ++
              fix_return r ++ name ++ "(" ++ a ++ ")")) := by
    intro z r a hdmp
    rw [dump_function, if_neg hname, if_neg hidx]
    simp only [hf]
    rw [hdmp, rbind_ok]
  constructor
  · intro hnone
    have hdmp : dump_method_parts d (fuel+1) t = .ok (true, ret, args) := by
      rw [dump_method_parts, hret, rbind_ok, hargs, rbind_ok, hnone]
    exact hlift true ret args hdmp
  · intro ti p hsome hpfind
    have hfthis : d.find ti = .ok (.Pointer p) := by
      rw [TypeDumper.find, hpfind]
    constructor
    · intro heq
      have hct : d.check_this_type ti t.class_type = .ok true := by
        rw [TypeDumper.check_this_type, hfthis, rbind_ok]
        simp [heq]
      have hdmp : dump_method_parts d (fuel+1) t = .ok (false, ret, args) := by
        rw [dump_method_parts, hret, rbind_ok, hargs, rbind_ok, hsome]
        show rbind (d.check_this_type ti t.class_type) _ = _
        rw [hct, rbind_ok]
        rfl
      exact hlift false ret args hdmp
    · intro this_s hneq hthis
      have hct : d.check_this_type ti t.class_type = .ok false := by
        rw [TypeDumper.check_this_type, hfthis, rbind_ok]
        simp [beq_eq_false_iff_ne, hneq]
      have hdmp : dump_method_parts d (fuel+1) t =
          .ok (false, ret,
               if args = "" then this_s else this_s ++ ", " ++ args) := by
        rw [dump_method_parts, hret, rbind_ok, hargs, rbind_ok, hsome]
        show rbind (d.check_this_type ti t.class_type) _ = _
        rw [hct, rbind_ok]
        show rbind (dump_index d fuel ti) _ = _
        rw [hthis, rbind_ok]
      exact hlift false ret _ hdmp

/-- The void primitive record. -/
def voidRec : PrimitiveType := { kind := .Void, indirection := false }

/-- A static member function: void return (index 2), class C (index 4),
empty argument list (index 3), no this pointer. -/
def tStaticMeth : MemberFunctionType :=
  { attributes := { is_constructor := false, cxx_return_udt := false },
    return_type := 2, class_type := 4, this_pointer_type := none,
    argument_list := 3 }

/-- The declaring class record. -/
def classCRec : ClassType :=
  { kind := .Class, forward_reference := false, name := "C",
    unique_name := none, size := 8 }

/-- Catalog for the C5 witness. -/
def dMeth : TypeDumper :=
  TypeDumper.new
    [ .parsed (.Other "pad")
    , .parsed (.MemberFunction tStaticMeth)
    , .parsed (.Primitive voidRec)
    , .parsed (.ArgumentList { arguments := [] })
    , .parsed (.Class classCRec) ] 8

/-- Witness for C5: the static case renders "static void f()". -/
theorem method_signature_rules_w :
    dump_function dMeth (fun _ => false) (fun _ => none) 4 "f" 1 =
      .ok (.Undecorated "static void f()") := by
  have h := (method_signature_rules dMeth (fun _ => false) (fun _ => none)
    3 1 tStaticMeth "f" "void" "" (by decide) (by decide) rfl (by decide)
    (by decide)).1 rfl
  exact h.trans (by decide)

/-- The bracket text of one (cumulative, next-inner) size pair. -/
def brText (p : Nat × Nat) : String := "[" ++ toString (p.1 / p.2) ++ "]"

/-- The (cumulative, divisor) pairs in the innermost-first order in
which the `dump_array` fold processes them: each reversed dimension is
divided by the running size, which starts at `m` and becomes the current
dimension afterwards. -/
def revPairs : List Nat → Nat → List (Nat × Nat)
  | [], _ => []
  | x :: xs, m => (x, m) :: revPairs xs x

/-- The (cumulative, next-inner) pairs in outer-to-inner order: each
dimension is paired with the next one, the last with `m`. -/
def pairsWith : List Nat → Nat → List (Nat × Nat)
  | [], _ => []
  | x :: xs, m =>
    (x, match xs with
        | [] => m
        | y :: _ => y) :: pairsWith xs m

/-- The division fold succeeds on nonzero inputs and produces exactly
the bracket texts of the innermost-first pairs. -/
theorem renderDimsRev_eq (l : List Nat) : ∀ m : Nat, m ≠ 0 →
    (∀ x ∈ l, x ≠ 0) →
    renderDimsRev l m = some ((revPairs l m).map brText) := by
  induction l with
  | nil => intro m _ _; rfl
  | cons x xs ih =>
    intro m hm hl
    rw [renderDimsRev, if_neg hm,
        ih x (hl x (List.mem_cons_self _ _))
          (fun y hy => hl y (List.mem_cons_of_mem _ hy))]
    rfl

/-- The outer-to-inner pairing is the zip of the dimensions with their
one-step-inner shift (ended by `m`). -/
theorem pairsWith_eq_zip (l : List Nat) (m : Nat) :
    pairsWith l m = l.zip (l.drop 1 ++ [m]) := by
  induction l with
  | nil => rfl
  | cons x xs ih =>
    cases xs with
    | nil => rfl
    | cons y ys =>
      show (x, y) :: pairsWith (y :: ys) m = _
      rw [ih]
      rfl

/-- Appending an innermost dimension shifts the pairing by one. -/
theorem pairsWith_snoc (A : List Nat) (x m : Nat) :
    pairsWith (A ++ [x]) m = pairsWith A x ++ [(x, m)] := by
  induction A with
  | nil => rfl
  | cons a At ih =>
    cases At with
    | nil => rfl
    | cons b At2 =>
      show (a, b) :: pairsWith ((b :: At2) ++ [x]) m =
        (a, b) :: (pairsWith (b :: At2) x ++ [(x, m)])
      rw [ih]

/-- Reversing the innermost-first pairs gives the outer-to-inner pairs
of the reversed list. -/
theorem revPairs_reverse (u : List Nat) : ∀ m : Nat,
    (revPairs u m).reverse = pairsWith u.reverse m := by
  induction u with
  | nil => intro m; rfl
  | cons x xs ih =>
    intro m
    show ((x, m) :: revPairs xs x).reverse = pairsWith (x :: xs).reverse m
    rw [List.reverse_cons, ih x, List.reverse_cons, pairsWith_snoc]

/-- C3: for every catalog and array record whose chain of nested
single-dimension Array records resolves (via `get_array_info`) to the
outer-to-inner cumulative dimensions `dims` and a non-array base element
whose computed size `m` is nonzero (all cumulative dimensions nonzero as
the cumulative encoding implies), `dump_array` renders the base type
text followed by bracket groups in outer-to-inner order, each extent
being that level's cumulative size divided by the next-inner cumulative
size, with base case the element size `m`. -/
theorem dump_array_brackets (d : TypeDumper) (fuel : Nat) (arr : ArrayType)
    (dims : List Nat) (base : TypeData) (m : Nat) (bs : String)
    (hinfo : get_array_info d fuel arr = .ok (dims, base))
    (hsize : get_data_size d fuel base = .ok m)
    (hm : m ≠ 0)
    (hdims : ∀ x ∈ dims, x ≠ 0)
    (hdump : dump_data d fuel base = .ok bs) :
    dump_array d (fuel+1) arr =
      .ok (bs ++ String.join ((dims.zip (dims.drop 1 ++ [m])).map
            (fun p => "[" ++ toString (p.1 / p.2) ++ "]"))) := by
  rw [dump_array]
  simp only [hinfo, hsize]
  have hrd : renderDimsRev dims.reverse m =
      some ((revPairs dims.reverse m).map brText) :=
    renderDimsRev_eq dims.reverse m hm
      (fun x hx => hdims x (List.mem_reverse.mp hx))
  simp only [hrd, hdump, rbind_ok]
  rw [← List.map_reverse, revPairs_reverse, List.reverse_reverse,
    pairsWith_eq_zip]
  rfl

/-- The `int` primitive record. -/
def intRec : PrimitiveType := { kind := .I32, indirection := false }

/-- The inner Array record of `int[12][34]`: cumulative dimension
`34 * 4 = 136` bytes over the `int` element (index 2). -/
def arrInner : ArrayType := { element_type := 2, dimensions := [136] }

/-- The outer Array record of `int[12][34]`: cumulative dimension
`12 * 34 * 4 = 1632` bytes over the inner array (index 1). -/
def arrOuter : ArrayType := { element_type := 1, dimensions := [1632] }

/-- Catalog for the C3 witness: the `int[12][34]` encoding. -/
def dInt : TypeDumper :=
  TypeDumper.new
    [ .parsed (.Array arrOuter)
    , .parsed (.Array arrInner)
    , .parsed (.Primitive intRec) ] 8

/-- Witness for C3: the `int[12][34]` encoding prints as
`"int[12][34]"`. -/
theorem dump_array_brackets_w :
    dump_array dInt 3 arrOuter = .ok "int[12][34]" := by
  have h := dump_array_brackets dInt 2 arrOuter [1632, 136]
    (.Primitive intRec) 4 "int" (by decide) (by decide) (by decide)
    (by decide) (by decide)
  exact h.trans (by decide)

end DumpSyms
